import Mathlib

/-!
Verification of the table-migration engine in `migrate_and_rename.py`.

The Python source is shallowly embedded: strings are Lean `String`s
(lists of Unicode code points), the YAML table configuration is a
structure, the source cursor is modelled by the list of row batches it
yields, and the destination table is modelled by an
`Option (List Row)` (`none` = the table does not exist).
-/

/-- Python whitespace test, restricted to the ASCII range: the
character class matched by the regex `\s` and stripped by `str.strip`
(tab, newline, vertical tab, form feed, carriage return, space). -/
def pyIsSpace (c : Char) : Bool :=
  decide (c.toNat = 32 ∨ (9 ≤ c.toNat ∧ c.toNat ≤ 13))

/-- Python `str.lower` on a single character, on the ASCII range:
uppercase basic-latin letters are shifted to lowercase, every other
character is unchanged. -/
def pyToLower (c : Char) : Char :=
  if 65 ≤ c.toNat ∧ c.toNat ≤ 90 then Char.ofNat (c.toNat + 32) else c

/-- Python `str.strip()`: drop leading and trailing whitespace. -/
def pyStrip (l : List Char) : List Char :=
  ((l.dropWhile pyIsSpace).reverse.dropWhile pyIsSpace).reverse

/-- Worker for the substitution `re.sub(r"\s+", "_", s)`: the flag
records whether the scan is currently inside a whitespace run (a run
emits one underscore at its first character and nothing afterwards). -/
def collapseAux : Bool → List Char → List Char
  | _, [] => []
  | inRun, c :: cs =>
    if pyIsSpace c then
      if inRun then collapseAux true cs else '_' :: collapseAux true cs
    else c :: collapseAux false cs

/-- The substitution `re.sub(r"\s+", "_", s)`: every maximal run of
whitespace characters is replaced by a single underscore. -/
def collapseWs (l : List Char) : List Char :=
  collapseAux false l

/-- `sanitize` from `migrate_and_rename.py`:
`re.sub(r"\s+", "_", name.strip()).lower()`. -/
def sanitize (s : String) : String :=
  String.mk ((collapseWs (pyStrip s.data)).map pyToLower)

theorem toNat_ofNat_of_lt {n : Nat} (h : n < 55296) : (Char.ofNat n).toNat = n := by
  rw [Char.ofNat, dif_pos (Or.inl h)]
  rfl

theorem pyToLower_toNat (c : Char) :
    (pyToLower c).toNat =
      if 65 ≤ c.toNat ∧ c.toNat ≤ 90 then c.toNat + 32 else c.toNat := by
  unfold pyToLower
  split
  · next h => exact toNat_ofNat_of_lt (by omega)
  · rfl

theorem pyIsSpace_pyToLower (c : Char) : pyIsSpace (pyToLower c) = pyIsSpace c := by
  have h := pyToLower_toNat c
  unfold pyIsSpace
  rw [h]
  split
  · next hc =>
    rw [decide_eq_decide]
    omega
  · rfl

theorem pyToLower_idem (c : Char) : pyToLower (pyToLower c) = pyToLower c := by
  have h := pyToLower_toNat c
  have hcond : ¬ (65 ≤ (pyToLower c).toNat ∧ (pyToLower c).toNat ≤ 90) := by
    rw [h]
    split <;> omega
  calc pyToLower (pyToLower c)
      = if 65 ≤ (pyToLower c).toNat ∧ (pyToLower c).toNat ≤ 90 then
          Char.ofNat ((pyToLower c).toNat + 32) else pyToLower c := rfl
    _ = pyToLower c := if_neg hcond

theorem underscore_not_space : pyIsSpace '_' = false := by decide

theorem mem_collapseAux_not_space (l : List Char) :
    ∀ b, ∀ c ∈ collapseAux b l, pyIsSpace c = false := by
  induction l with
  | nil => intro b c hc; simp [collapseAux] at hc
  | cons a t ih =>
    intro b c hc
    rw [collapseAux] at hc
    by_cases hsp : pyIsSpace a = true
    · rw [if_pos hsp] at hc
      cases b with
      | true => exact ih true c hc
      | false =>
        rcases List.mem_cons.mp hc with h | h
        · rw [h]; exact underscore_not_space
        · exact ih true c h
    · rw [if_neg hsp] at hc
      rcases List.mem_cons.mp hc with h | h
      · rw [h]; exact Bool.not_eq_true _ ▸ hsp
      · exact ih false c h

theorem mem_collapseWs_not_space (l : List Char) :
    ∀ c ∈ collapseWs l, pyIsSpace c = false :=
  mem_collapseAux_not_space l false

theorem dropWhile_eq_self_of {α : Type} (p : α → Bool) (l : List α)
    (h : ∀ c ∈ l, p c = false) : l.dropWhile p = l := by
  cases l with
  | nil => rfl
  | cons a t =>
    rw [List.dropWhile_cons, h a (List.mem_cons_self a t)]
    simp

theorem pyStrip_eq_self (l : List Char) (h : ∀ c ∈ l, pyIsSpace c = false) :
    pyStrip l = l := by
  unfold pyStrip
  rw [dropWhile_eq_self_of _ _ h,
      dropWhile_eq_self_of _ _ (fun c hc => h c (List.mem_reverse.mp hc)),
      List.reverse_reverse]

theorem collapseWs_eq_self (l : List Char) (h : ∀ c ∈ l, pyIsSpace c = false) :
    collapseWs l = l := by
  unfold collapseWs
  induction l with
  | nil => rfl
  | cons a t ih =>
    rw [collapseAux, if_neg]
    · rw [ih (fun c hc => h c (List.mem_cons_of_mem a hc))]
    · rw [h a (List.mem_cons_self a t)]
      exact Bool.false_ne_true

theorem sanitize_data (s : String) :
    (sanitize s).data = (collapseWs (pyStrip s.data)).map pyToLower := rfl

theorem sanitize_no_space (s : String) :
    ∀ c ∈ (sanitize s).data, pyIsSpace c = false := by
  intro c hc
  rw [sanitize_data] at hc
  rcases List.mem_map.mp hc with ⟨d, hd, rfl⟩
  rw [pyIsSpace_pyToLower]
  exact mem_collapseWs_not_space _ d hd

theorem sanitize_lower_fixed (s : String) :
    ∀ c ∈ (sanitize s).data, pyToLower c = c := by
  intro c hc
  rw [sanitize_data] at hc
  rcases List.mem_map.mp hc with ⟨d, hd, rfl⟩
  exact pyToLower_idem d

theorem sanitize_idem (s : String) : sanitize (sanitize s) = sanitize s := by
  have hns := sanitize_no_space s
  calc sanitize (sanitize s)
      = String.mk ((collapseWs (pyStrip (sanitize s).data)).map pyToLower) := rfl
    _ = String.mk ((collapseWs (sanitize s).data).map pyToLower) := by
        rw [pyStrip_eq_self _ hns]
    _ = String.mk ((sanitize s).data.map pyToLower) := by
        rw [collapseWs_eq_self _ hns]
    _ = String.mk (sanitize s).data := by
        rw [List.map_congr_left (sanitize_lower_fixed s)]
        simp
    _ = sanitize s := rfl

/-- C8: sanitize is idempotent; its output is the input trimmed of
leading/trailing whitespace, with each internal whitespace run
collapsed to a single underscore, then lower-cased; the output contains
no whitespace character and is fixed under lower-casing. As a Lean
function it is pure, total and deterministic. -/
theorem C8_sanitize_spec (x : String) :
    sanitize (sanitize x) = sanitize x ∧
    sanitize x = String.mk ((collapseWs (pyStrip x.data)).map pyToLower) ∧
    (sanitize x).data.all (fun c => !(pyIsSpace c)) = true ∧
    (sanitize x).data.all (fun c => decide (pyToLower c = c)) = true := by
  refine ⟨sanitize_idem x, rfl, ?_, ?_⟩
  · rw [List.all_eq_true]
    intro c hc
    rw [sanitize_no_space x c hc]
    rfl
  · rw [List.all_eq_true]
    intro c hc
    exact decide_eq_true (sanitize_lower_fixed x c hc)

/-- Python `str.lower()` for whole strings, on the ASCII range. -/
def strLower (s : String) : String :=
  String.mk (s.data.map pyToLower)

/-- Boolean infix test on character lists (the Python `in` operator on
strings): does `pat` occur contiguously inside the second list? -/
def listContains (pat : List Char) : List Char → Bool
  | [] => pat.isEmpty
  | c :: cs => pat.isPrefixOf (c :: cs) || listContains pat cs

/-- The Python expression `pat in s` for strings. -/
def strContains (s pat : String) : Bool :=
  listContains pat.data s.data

/-- The polymorphic YAML fields `where` / `order_by`: a single string
or an ordered list of strings (absence is `Option.none` around this). -/
inductive StrOrList where
  | str (s : String)
  | list (l : List String)
deriving DecidableEq

/-- Per-table YAML configuration record read by `transfer_table`.
`whereCfg` models the `where` key (`where` is a Lean keyword). The
`date_column` / `lookback_days` keys named by the specification are
carried so that their effect (or absence of effect) can be stated. -/
structure TblCfg where
  enabled : Bool := true
  schema : Option String := none
  name : String
  limit : Option Nat := none
  whereCfg : Option StrOrList := none
  order_by : Option StrOrList := none
  date_column : Option String := none
  lookback_days : Option Nat := none
deriving DecidableEq

/-- `build_where_clause` from `migrate_and_rename.py`. -/
def build_where_clause (cfg : TblCfg) : String :=
  match cfg.whereCfg with
  | none => ""
  | some (.list l) =>
      "WHERE " ++ String.intercalate " AND " (l.map fun cond => "(" ++ cond ++ ")")
  | some (.str s) => "WHERE " ++ s

/-- `build_order_clause` from `migrate_and_rename.py`. -/
def build_order_clause (cfg : TblCfg) : String :=
  match cfg.order_by with
  | none => ""
  | some (.list l) => "ORDER BY " ++ String.intercalate ", " l
  | some (.str s) => "ORDER BY " ++ s

/-- The `top` fragment of `transfer_table`:
`f"TOP {limit} " if tbl_cfg.get('limit') else ""` (Python truthiness:
both a missing key and `0` yield the empty fragment). -/
def topClause (cfg : TblCfg) : String :=
  match cfg.limit with
  | none => ""
  | some n => if n = 0 then "" else "TOP " ++ toString n ++ " "

/-- The projection list of `transfer_table`:
`", ".join(f"[{c}]" for c in cols)`. -/
def selColsClause (cols : List String) : String :=
  String.intercalate ", " (cols.map fun c => "[" ++ c ++ "]")

/-- The full query string built in `transfer_table`:
`f"SELECT {top}{sel_cols} FROM [{schema}].[{orig_name}] {where} {order}"`
with `schema = tbl_cfg.get('schema', 'dbo')`. -/
def buildQuery (cfg : TblCfg) (cols : List String) : String :=
  "SELECT " ++ topClause cfg ++ selColsClause cols ++
    " FROM [" ++ cfg.schema.getD "dbo" ++ "].[" ++ cfg.name ++ "] " ++
    build_where_clause cfg ++ " " ++ build_order_clause cfg

/-- C4: shape of the built query string. With `where` and `order_by`
unset the query has no WHERE and no ORDER BY clause; a list-valued
`where` becomes a parenthesized AND-conjunction; a list-valued
`order_by` becomes a comma-joined ORDER BY; string-valued `where` /
`order_by` are used verbatim inside their clause; `limit` inserts
`TOP n` immediately after `SELECT`, and is absent when unset. -/
theorem C4_query_builder (w ob : String) :
    build_where_clause ⟨true, some "s", "t", none, none, none, none, none⟩ = "" ∧
    build_order_clause ⟨true, some "s", "t", none, none, none, none, none⟩ = "" ∧
    buildQuery ⟨true, some "s", "t", none, none, none, none, none⟩ ["c1", "c2"] =
      "SELECT [c1], [c2] FROM [s].[t]  " ∧
    strContains (buildQuery ⟨true, some "s", "t", none, none, none, none, none⟩
      ["c1", "c2"]) "WHERE" = false ∧
    strContains (buildQuery ⟨true, some "s", "t", none, none, none, none, none⟩
      ["c1", "c2"]) "ORDER BY" = false ∧
    build_where_clause ⟨true, some "s", "t", none, some (.list ["a=1", "b=2"]),
      none, none, none⟩ = "WHERE (a=1) AND (b=2)" ∧
    build_order_clause ⟨true, some "s", "t", none, none, some (.list ["x", "y"]),
      none, none⟩ = "ORDER BY x, y" ∧
    build_where_clause ⟨true, some "s", "t", none, some (.str w), none, none, none⟩ =
      "WHERE " ++ w ∧
    build_order_clause ⟨true, some "s", "t", none, none, some (.str ob), none, none⟩ =
      "ORDER BY " ++ ob ∧
    buildQuery ⟨true, some "s", "t", some 100, none, none, none, none⟩ ["c1", "c2"] =
      "SELECT TOP 100 [c1], [c2] FROM [s].[t]  " :=
  ⟨rfl, rfl, by decide, by decide, by decide, by decide, by decide, rfl, rfl, by decide⟩

/-- A table config with the recency pair set and no `where` field. -/
def cfgRecency : TblCfg :=
  ⟨true, some "dbo", "t", none, none, none, some "updated_at", some 30⟩

/-- C1 counterexample: a table config with the recency pair set
(`date_column = "updated_at"`, `lookback_days = 30`) and no `where`
field yields a query with no WHERE clause at all — the code never reads
the recency pair, so no "now minus lookback_days" condition appears. -/
theorem C1_counterexample :
    buildQuery cfgRecency ["c"] = "SELECT [c] FROM [dbo].[t]  " ∧
    strContains (buildQuery cfgRecency ["c"]) "WHERE" = false := by
  exact ⟨by decide, by decide⟩

/-- C1 amended: the `date_column` / `lookback_days` pair has no effect
on the built query: the query (and in particular its WHERE clause)
is identical whether or not the recency pair is configured; the WHERE
clause contains only the predicates of the `where` field. -/
theorem C1_amended_recency_ignored (cfg : TblCfg) (cols : List String)
    (d : String) (n : Nat) :
    buildQuery { cfg with date_column := some d, lookback_days := some n } cols =
      buildQuery cfg cols ∧
    build_where_clause { cfg with date_column := some d, lookback_days := some n } =
      build_where_clause cfg :=
  ⟨rfl, rfl⟩

/-- `fetch_column_info` from `migrate_and_rename.py`. The metadata
catalog answer (`INFORMATION_SCHEMA.COLUMNS` restricted to the table,
in catalog order) is the input list of (COLUMN_NAME, DATA_TYPE) pairs;
the second component of the result records whether the observability
note about falling back to all columns was printed. -/
def fetch_column_info (catalog : List (String × String)) : List String × Bool :=
  let filtered :=
    (catalog.filter fun p => !(strContains (strLower p.2) "binary")).map Prod.fst
  if !filtered.isEmpty then (filtered, false)
  else (catalog.map Prod.fst, true)

/-- C5: the column resolver returns the non-binary columns in catalog
order when there are any; the full unrestricted column list together
with the fallback note when the filtered set is empty but the catalog
is not; and the empty sequence on an empty catalog answer. -/
theorem C5_column_resolver (catalog : List (String × String)) :
    ((catalog.filter fun p => !(strContains (strLower p.2) "binary")).map Prod.fst ≠ [] →
      fetch_column_info catalog =
        ((catalog.filter fun p => !(strContains (strLower p.2) "binary")).map Prod.fst,
          false)) ∧
    ((catalog.filter fun p => !(strContains (strLower p.2) "binary")).map Prod.fst = [] →
      catalog ≠ [] →
      fetch_column_info catalog = (catalog.map Prod.fst, true)) ∧
    (catalog = [] → fetch_column_info catalog = ([], true)) := by
  refine ⟨?_, ?_, ?_⟩
  · intro h
    have hE : (List.map Prod.fst
        (List.filter (fun p => !strContains (strLower p.2) "binary") catalog)).isEmpty
          = false := List.isEmpty_eq_false.mpr h
    simp only [fetch_column_info, hE, Bool.not_false, if_true]
  · intro h _
    simp only [fetch_column_info, h, List.isEmpty_nil, Bool.not_true, Bool.false_eq_true,
      if_false]
  · intro h
    subst h
    rfl

/-- Witness for C5: a mixed catalog keeps only the non-binary column,
an all-binary catalog falls back to the full list with the note, and
the empty catalog yields the empty sequence. -/
theorem C5_column_resolver_witness :
    fetch_column_info [("a", "int"), ("b", "VARBINARY")] = (["a"], false) ∧
    fetch_column_info [("x", "varbinary"), ("y", "Binary")] = (["x", "y"], true) ∧
    fetch_column_info [] = ([], true) :=
  ⟨(C5_column_resolver [("a", "int"), ("b", "VARBINARY")]).1 (by decide),
   (C5_column_resolver [("x", "varbinary"), ("y", "Binary")]).2.1 (by decide) (by decide),
   (C5_column_resolver []).2.2 rfl⟩

/-- Fuel-driven floor of the base-2 logarithm (structural recursion so
that the kernel can evaluate it). -/
def log2fuel : Nat → Nat → Nat
  | 0, _ => 0
  | fuel+1, n => if 2 ≤ n then log2fuel fuel (n / 2) + 1 else 0

/-- Floor of the base-2 logarithm of a positive natural number. -/
def natLog2 (n : Nat) : Nat := log2fuel n n

/-- Round the positive rational `N / D` to the nearest binary64 value
(round half to even, 53 significant bits, subnormal exponents clamped
at the IEEE minimum −1074; overflow to infinity is not modelled, so
the result is the pair `(m, s)` with value `m * 2 ^ s`). -/
def float64RoundPos (N D : Nat) : Nat × Int :=
  let k : Int := (natLog2 N : Int) - (natLog2 D : Int)
  let geTest : Bool :=
    if 0 ≤ k then decide (D * 2 ^ k.toNat ≤ N) else decide (D ≤ N * 2 ^ (-k).toNat)
  let e : Int := if geTest then k else k - 1
  let s : Int := max (e - 52) (-1074)
  let A : Nat := if 0 ≤ s then N else N * 2 ^ (-s).toNat
  let B : Nat := if 0 ≤ s then D * 2 ^ s.toNat else D
  let q := A / B
  let r := A % B
  let m := if 2 * r < B then q else if B < 2 * r then q + 1
           else if q % 2 = 0 then q else q + 1
  (m, s)

/-- Binary64 conversion of the decimal value `c * 10 ^ e10` (a Python
`decimal.Decimal` is a sign, a coefficient and a power of ten); result
`(m, s)` denotes the value `m * 2 ^ s`. -/
def float64Pair (c e10 : Int) : Int × Int :=
  if c = 0 then (0, 0)
  else
    let N : Nat := if 0 ≤ e10 then c.natAbs * 10 ^ e10.toNat else c.natAbs
    let D : Nat := if 0 ≤ e10 then 1 else 10 ^ (-e10).toNat
    let p := float64RoundPos N D
    (if c < 0 then -(p.1 : Int) else (p.1 : Int), p.2)

/-- Integer power of two as a rational. -/
def qpow2 (s : Int) : ℚ :=
  if 0 ≤ s then ((2 ^ s.toNat : ℕ) : ℚ) else 1 / ((2 ^ (-s).toNat : ℕ) : ℚ)

/-- Exact rational value of the binary64 conversion of the decimal
`c * 10 ^ e10`; this is what Python `float(decimal.Decimal(...))`
produces, read back as an exact rational. -/
def toFloat64 (c e10 : Int) : ℚ :=
  ((float64Pair c e10).1 : ℚ) * qpow2 (float64Pair c e10).2

/-- A cell value fetched from the source cursor: an
arbitrary-precision decimal (`decimal.Decimal`, kept as coefficient ×
power of ten), a binary64 float (kept as its exact rational value), an
integer, a string, or NULL. -/
inductive Value where
  | dec (coeff exp10 : Int)
  | flt (q : ℚ)
  | int (n : Int)
  | str (s : String)
  | null
deriving DecidableEq

/-- Per-value normalization in `transfer_table`:
`float(v) if isinstance(v, decimal.Decimal) else v`. -/
def normVal : Value → Value
  | .dec c e => .flt (toFloat64 c e)
  | v => v

/-- Per-row normalization: the inner list comprehension of
`transfer_table`. -/
def normRow (r : List Value) : List Value := r.map normVal

/-- C6: normalization sends every decimal value to its binary64
conversion and leaves values of every other type unchanged; for the
decimal 123.45 the conversion yields the binary64 value
8687021468732621 × 2⁻⁴⁶ (the double nearest 123.45). Placement before
the append is fixed by the definition of the batch loop, which appends
`b.map normRow` (see the transfer-loop theorems). -/
theorem C6_decimal_normalization :
    (∀ c e, normVal (.dec c e) = .flt (toFloat64 c e)) ∧
    (∀ q, normVal (.flt q) = .flt q) ∧
    (∀ n, normVal (.int n) = .int n) ∧
    (∀ s, normVal (.str s) = .str s) ∧
    normVal .null = .null ∧
    (∀ r, normRow r = r.map normVal) ∧
    float64Pair 12345 (-2) = (8687021468732621, -46) ∧
    toFloat64 12345 (-2) = 8687021468732621 / 70368744177664 := by
  refine ⟨fun c e => rfl, fun q => rfl, fun n => rfl, fun s => rfl, rfl,
    fun r => rfl, by decide, ?_⟩
  have h : float64Pair 12345 (-2) = (8687021468732621, -46) := by decide
  rw [toFloat64, h]
  have hq : qpow2 (-46) = 1 / ((70368744177664 : ℕ) : ℚ) := by
    rw [qpow2, if_neg (by omega)]
    norm_num
    rw [show Int.toNat 46 = 46 from rfl]
    norm_num
  rw [hq]
  push_cast
  norm_num

/-- Engine-level batch size constant (`CHUNK_SIZE = 50_000`). -/
def CHUNK_SIZE : Nat := 50000

/-- A fetched row. -/
abbrev Row := List Value

/-- The single destination table of a transfer, as seen in Postgres:
`none` means the table does not exist; `some rows` is its content. -/
abbrev Db := Option (List Row)

/-- Terminal state of one table's migration (the specification's
`TransferResult` statuses; in the script `failed` is the uncaught
exception propagating out of `transfer_table`). -/
inductive Outcome where
  | skippedDisabled
  | skippedEmpty
  | completed (total : Nat)
  | failed (e : String)
deriving DecidableEq

/-- The destination append collaborator
(`df.to_sql(..., if_exists='append')`): appending to a dropped table
creates it, otherwise rows are appended at the end. -/
def pgAppend (db : Db) (d : List Row) : Except String Db :=
  .ok (some (db.getD [] ++ d))

/-- An instrumented destination that records the sequence of append
calls instead of the table content. -/
def appendLog (log : List (List Row)) (d : List Row) :
    Except String (List (List Row)) :=
  .ok (log ++ [d])

/-- The fetch/normalize/append loop of `transfer_table` (lines
148–161): the source cursor is modelled by the list of batches its
successive `fetchmany(CHUNK_SIZE)` calls yield; `δ` is the state of the
destination collaborator, which may fail (raising out of the loop). -/
def batchLoop {δ : Type} (appendF : δ → List Row → Except String δ) :
    List (List Row) → δ → Nat → Except String (δ × Nat)
  | [], db, total => .ok (db, total)
  | rows :: rest, db, total =>
    if rows.isEmpty then .ok (db, total)
    else
      let d := rows.map normRow
      if d.isEmpty then .ok (db, total)
      else
        match appendF db d with
        | .error e => .error e
        | .ok db2 => batchLoop appendF rest db2 (total + d.length)

/-- The `with pg_engine.begin() as pg_conn:` block around the batch
loop: on normal completion the accumulated state is committed, on an
error the pre-transaction state is restored (rollback). -/
def withTransaction {δ : Type} (db0 : δ) (r : Except String (δ × Nat)) :
    δ × Except String Nat :=
  match r with
  | .ok (db2, n) => (db2, .ok n)
  | .error e => (db0, .error e)

/-- `transfer_table` from `migrate_and_rename.py`, restricted to the
destination-visible behaviour: skip when disabled, skip when the column
resolver returns no columns, otherwise drop the destination table
(its own committed unit) and run the batch loop inside one transaction.
Query construction (`buildQuery`) and name sanitization (`sanitize`)
are modelled separately; no check of any kind is performed on the
sanitized column names. -/
def transfer_table (appendF : Db → List Row → Except String Db) (cfg : TblCfg)
    (catalog : List (String × String)) (batches : List (List Row)) (db : Db) :
    Db × Outcome :=
  if cfg.enabled = false then (db, .skippedDisabled)
  else if ((fetch_column_info catalog).1).isEmpty then (db, .skippedEmpty)
  else
    match withTransaction (none : Db) (batchLoop appendF batches (none : Db) 0) with
    | (db2, .ok n) => (db2, .completed n)
    | (db2, .error e) => (db2, .failed e)

theorem batchLoop_appendLog_ok (bs : List (List Row))
    (hne : ∀ b ∈ bs, b ≠ []) (log : List (List Row)) (t : Nat) :
    batchLoop appendLog bs log t =
      .ok (log ++ bs.map (fun b => b.map normRow), t + (bs.map List.length).sum) := by
  induction bs generalizing log t with
  | nil => simp [batchLoop]
  | cons b bs ih =>
    have hb : b.isEmpty = false :=
      List.isEmpty_eq_false.mpr (hne b (List.mem_cons_self b bs))
    have hd : (b.map normRow).isEmpty = false := by
      rw [List.isEmpty_eq_false]
      simp only [ne_eq, List.map_eq_nil_iff]
      exact hne b (List.mem_cons_self b bs)
    rw [batchLoop, if_neg (by rw [hb]; exact Bool.false_ne_true),
        if_neg (by rw [hd]; exact Bool.false_ne_true)]
    show batchLoop appendLog bs (log ++ [b.map normRow]) (t + (b.map normRow).length) = _
    rw [ih (fun x hx => hne x (List.mem_cons_of_mem b hx))]
    simp [List.length_map, Nat.add_assoc]

theorem batchLoop_pgAppend_some (bs : List (List Row))
    (hne : ∀ b ∈ bs, b ≠ []) (l : List Row) (t : Nat) :
    batchLoop pgAppend bs (some l) t =
      .ok (some (l ++ (bs.map (fun b => b.map normRow)).flatten),
        t + (bs.map List.length).sum) := by
  induction bs generalizing l t with
  | nil => simp [batchLoop]
  | cons b bs ih =>
    have hb : b.isEmpty = false :=
      List.isEmpty_eq_false.mpr (hne b (List.mem_cons_self b bs))
    have hd : (b.map normRow).isEmpty = false := by
      rw [List.isEmpty_eq_false]
      simp only [ne_eq, List.map_eq_nil_iff]
      exact hne b (List.mem_cons_self b bs)
    rw [batchLoop, if_neg (by rw [hb]; exact Bool.false_ne_true),
        if_neg (by rw [hd]; exact Bool.false_ne_true)]
    show batchLoop pgAppend bs (some ((some l : Db).getD [] ++ b.map normRow))
        (t + (b.map normRow).length) = _
    rw [ih (fun x hx => hne x (List.mem_cons_of_mem b hx))]
    simp [List.length_map, Nat.add_assoc, List.append_assoc]

/-- C9: a cursor yielding batches of sizes 50000, 50000, 12345 (then
exhaustion) drives exactly 3 append calls totalling 112345 rows, and
the reported final count is 112345; in general the reported total is
the sum of the fetched batch sizes and one append call is made per
fetched batch. -/
theorem C9_chunk_transfer_totals (b1 b2 b3 : List Row) (bs : List (List Row))
    (h1 : b1.length = 50000) (h2 : b2.length = 50000) (h3 : b3.length = 12345)
    (hbs : ∀ b ∈ bs, b ≠ []) :
    batchLoop appendLog [b1, b2, b3] [] 0 =
      .ok ([b1.map normRow, b2.map normRow, b3.map normRow], 112345) ∧
    [b1.map normRow, b2.map normRow, b3.map normRow].length = 3 ∧
    (b1.map normRow).length + (b2.map normRow).length + (b3.map normRow).length
      = 112345 ∧
    CHUNK_SIZE = 50000 ∧
    batchLoop appendLog bs [] 0 =
      .ok (bs.map (fun b => b.map normRow), (bs.map List.length).sum) := by
  have hne : ∀ b ∈ [b1, b2, b3], b ≠ [] := by
    intro b hb
    simp only [List.mem_cons, List.not_mem_nil, or_false] at hb
    rcases hb with h | h | h
    · rw [h]; intro hnil; rw [hnil] at h1; simp at h1
    · rw [h]; intro hnil; rw [hnil] at h2; simp at h2
    · rw [h]; intro hnil; rw [hnil] at h3; simp at h3
  refine ⟨?_, rfl, ?_, rfl, ?_⟩
  · rw [batchLoop_appendLog_ok [b1, b2, b3] hne [] 0]
    simp [h1, h2, h3]
  · simp [List.length_map, h1, h2, h3]
  · rw [batchLoop_appendLog_ok bs hbs [] 0]
    simp

/-- Witness for C9 at concrete batches of the stated sizes. -/
theorem C9_chunk_transfer_totals_witness :
    batchLoop appendLog
        [List.replicate 50000 ([] : Row), List.replicate 50000 ([] : Row),
          List.replicate 12345 ([] : Row)] [] 0 =
      .ok ([(List.replicate 50000 ([] : Row)).map normRow,
            (List.replicate 50000 ([] : Row)).map normRow,
            (List.replicate 12345 ([] : Row)).map normRow], 112345) :=
  (C9_chunk_transfer_totals (List.replicate 50000 ([] : Row))
    (List.replicate 50000 ([] : Row)) (List.replicate 12345 ([] : Row)) []
    (List.length_replicate 50000 ([] : Row)) (List.length_replicate 50000 ([] : Row))
    (List.length_replicate 12345 ([] : Row)) (by intro b hb; cases hb)).1

/-- A destination whose append always fails (e.g. a bulk-load type
mismatch raising out of `to_sql`). -/
def failAppend : Db → List Row → Except String Db :=
  fun _ _ => .error "bulk append failed"

/-- C3: all batch appends of a table run inside one transaction scope:
when the loop ends by exhaustion (here with the real append
collaborator), every appended row is committed together with the rest;
when an error propagates out of the loop (any failing collaborator),
the transaction rolls back to the pre-transaction state, so none of the
rows appended during the loop remain. -/
theorem C3_transaction_scope (bs : List (List Row))
    (appendF : Db → List Row → Except String Db) (e : String) (db0 : Db)
    (l0 : List Row)
    (hne : ∀ b ∈ bs, b ≠ [])
    (herr : batchLoop appendF bs db0 0 = .error e) :
    withTransaction db0 (batchLoop appendF bs db0 0) = (db0, .error e) ∧
    batchLoop pgAppend bs (some l0) 0 =
      .ok (some (l0 ++ (bs.map (fun b => b.map normRow)).flatten),
        (bs.map List.length).sum) ∧
    withTransaction (some l0) (batchLoop pgAppend bs (some l0) 0) =
      (some (l0 ++ (bs.map (fun b => b.map normRow)).flatten),
        .ok (bs.map List.length).sum) := by
  have hok := batchLoop_pgAppend_some bs hne l0 0
  rw [Nat.zero_add] at hok
  refine ⟨?_, hok, ?_⟩
  · rw [herr]
    rfl
  · rw [hok]
    rfl

/-- Witness for C3: one non-empty batch; the failing destination rolls
back to the pre-transaction state, the real destination commits the
normalized batch. -/
theorem C3_transaction_scope_witness :
    withTransaction (none : Db) (batchLoop failAppend [[[Value.int 1]]] none 0) =
      ((none : Db), .error "bulk append failed") ∧
    batchLoop pgAppend [[[Value.int 1]]] (some ([] : List Row)) 0 =
      .ok (some (([] : List Row) ++
          (([[[Value.int 1]]].map (fun b => b.map normRow)).flatten)),
        ([[[Value.int 1]]].map List.length).sum) ∧
    withTransaction (some ([] : List Row))
        (batchLoop pgAppend [[[Value.int 1]]] (some ([] : List Row)) 0) =
      (some (([] : List Row) ++
          (([[[Value.int 1]]].map (fun b => b.map normRow)).flatten)),
        .ok ([[[Value.int 1]]].map List.length).sum) :=
  C3_transaction_scope [[[Value.int 1]]] failAppend "bulk append failed" none []
    (by intro b hb; simp only [List.mem_singleton] at hb; rw [hb]; simp)
    (by rfl)

/-- C10: an enabled table with a non-empty resolved column set but a
query matching zero rows completes with count 0, yet the destination
table has been dropped and is never recreated: the final destination
state is `none` (no table with the sanitized name exists). -/
theorem C10_zero_row_transfer (cfg : TblCfg) (catalog : List (String × String))
    (db : Db) (he : cfg.enabled = true)
    (hc : (fetch_column_info catalog).1 ≠ []) :
    transfer_table pgAppend cfg catalog [] db = (none, .completed 0) := by
  unfold transfer_table
  rw [if_neg (by simp [he]), if_neg (by simp [hc])]
  rfl

/-- Witness for C10 at a concrete enabled table with one column and an
initially populated destination table. -/
theorem C10_zero_row_transfer_witness :
    transfer_table pgAppend ⟨true, none, "t", none, none, none, none, none⟩
      [("a", "int")] [] (some [[Value.int 7]]) = (none, .completed 0) :=
  C10_zero_row_transfer ⟨true, none, "t", none, none, none, none, none⟩
    [("a", "int")] (some [[Value.int 7]]) rfl (by decide)

/-- A table whose two source columns collide after sanitization. -/
def cfgCollide : TblCfg := ⟨true, none, "My Table", none, none, none, none, none⟩

/-- C7 counterexample: for the catalog `[("A B", int), ("a_b", int)]`
both columns sanitize to `a_b` (a collision), yet the transfer raises
no configuration error and the table's result is `completed`, not
`failed`: the code never checks the sanitized names and proceeds with
the duplicate destination column names. -/
theorem C7_counterexample :
    (fetch_column_info [("A B", "int"), ("a_b", "int")]).1.map sanitize =
      ["a_b", "a_b"] ∧
    transfer_table pgAppend cfgCollide [("A B", "int"), ("a_b", "int")]
        [[[Value.int 1, Value.int 2]]] (some []) =
      (some [[Value.int 1, Value.int 2]], .completed 1) :=
  ⟨by decide, by decide⟩

/-- C7 amended: no collision check exists; the sanitized column names
are used as-is (duplicates included) and the transfer of an enabled
table with resolved columns completes with the full row count whether
or not the sanitized names collide. -/
theorem C7_amended_no_collision_check (cfg : TblCfg)
    (catalog : List (String × String)) (batches : List (List Row)) (db : Db)
    (he : cfg.enabled = true) (hc : (fetch_column_info catalog).1 ≠ [])
    (hne : ∀ b ∈ batches, b ≠ []) :
    (transfer_table pgAppend cfg catalog batches db).2 =
      .completed ((batches.map List.length).sum) := by
  unfold transfer_table
  rw [if_neg (by simp [he]), if_neg (by simp [hc])]
  cases batches with
  | nil => rfl
  | cons b bs =>
    have hb : b.isEmpty = false :=
      List.isEmpty_eq_false.mpr (hne b (List.mem_cons_self b bs))
    have hd : (b.map normRow).isEmpty = false := by
      rw [List.isEmpty_eq_false]
      simp only [ne_eq, List.map_eq_nil_iff]
      exact hne b (List.mem_cons_self b bs)
    have hloop : batchLoop pgAppend (b :: bs) (none : Db) 0 =
        .ok (some (((b :: bs).map (fun x => x.map normRow)).flatten),
          ((b :: bs).map List.length).sum) := by
      rw [batchLoop, if_neg (by rw [hb]; exact Bool.false_ne_true),
          if_neg (by rw [hd]; exact Bool.false_ne_true)]
      show batchLoop pgAppend bs (some ([] ++ b.map normRow))
          (0 + (b.map normRow).length) = _
      rw [batchLoop_pgAppend_some bs (fun x hx => hne x (List.mem_cons_of_mem b hx))
          ([] ++ b.map normRow) (0 + (b.map normRow).length)]
      simp [List.length_map]
    rw [hloop]
    rfl

/-- Witness for C7 amended, at the colliding catalog of the
counterexample: the transfer still completes. -/
theorem C7_amended_no_collision_check_witness :
    (transfer_table pgAppend cfgCollide [("A B", "int"), ("a_b", "int")]
        [[[Value.int 1, Value.int 2]]] (some [])).2 =
      .completed (([[[Value.int 1, Value.int 2]]].map List.length).sum) :=
  C7_amended_no_collision_check cfgCollide [("A B", "int"), ("a_b", "int")]
    [[[Value.int 1, Value.int 2]]] (some []) rfl (by decide)
    (by intro b hb; simp only [List.mem_singleton] at hb; rw [hb]; simp)

/-- Per-source YAML configuration: name, enable flag, ordered table
list (connection parameters are irrelevant to control flow). -/
structure SrcCfg where
  name : String
  enabled : Bool := true
  tables : List TblCfg := []

/-- The inner table loop of `main` (lines 190–191):
`for tbl in src.get('tables', []): transfer_table(...)`. There is no
try/except, so the first error propagates and aborts the loop; the
result is the trace of (table name, reported count) pairs of the
tables completed before the error, with the error if one occurred.
`f` is the per-table transfer collaborator (`transfer_table`, which
raises on failure, modelled as `Except`). -/
def runTablesTrace (f : TblCfg → Except String Nat) :
    List TblCfg → List (String × Nat) × Option String
  | [] => ([], none)
  | t :: ts =>
    match f t with
    | .error e => ([], some e)
    | .ok n =>
      match runTablesTrace f ts with
      | (rs, err) => ((t.name, n) :: rs, err)

/-- The source loop of `main` (lines 181–193): disabled sources are
skipped; an error escaping a table transfer propagates out of `main`,
so the remaining tables of that source and all later sources are never
attempted. -/
def mainRun (f : TblCfg → Except String Nat) :
    List SrcCfg → List (String × Nat) × Option String
  | [] => ([], none)
  | s :: ss =>
    if s.enabled = false then mainRun f ss
    else
      match runTablesTrace f s.tables with
      | (rs, some e) => (rs, some e)
      | (rs, none) =>
        match mainRun f ss with
        | (rs2, err) => (rs ++ rs2, err)

/-- An enabled table config with the given name and no other options. -/
def tblNamed (nm : String) : TblCfg := ⟨true, none, nm, none, none, none, none, none⟩

/-- A transfer collaborator that raises on table `t2` and succeeds
with one row on every other table. -/
def failOnT2 : TblCfg → Except String Nat :=
  fun t => if t.name = "t2" then .error "transfer failed" else .ok 1

/-- Two enabled sources: `s1` with tables `t1`, `t2`; `s2` with `t3`. -/
def srcsC2 : List SrcCfg :=
  [⟨"s1", true, [tblNamed "t1", tblNamed "t2"]⟩, ⟨"s2", true, [tblNamed "t3"]⟩]

/-- C2 counterexample: with three configured tables across two enabled
sources and a failure on the second table, the run aborts at `t2`:
only `t1` yields a result, and `t3` (in a later source) is never
attempted — contradicting "every subsequent table is still attempted"
and "a per-table result for each configured table". -/
theorem C2_counterexample :
    mainRun failOnT2 srcsC2 = ([("t1", 1)], some "transfer failed") := by
  decide

/-- C2 amended: `main` has no table-level error handling. The first
table whose transfer raises aborts the run: the tables before it yield
their results, the failing table's error propagates, and every
following table — in the same source and in every later source — is
never attempted. -/
theorem C2_amended_first_error_aborts (f : TblCfg → Except String Nat)
    (pre post : List TblCfg) (t : TblCfg) (e : String)
    (nm : String) (ss : List SrcCfg)
    (hpre : ∀ x ∈ pre, ∃ n, f x = .ok n) (ht : f t = .error e) :
    (runTablesTrace f (pre ++ t :: post)).2 = some e ∧
    (runTablesTrace f (pre ++ t :: post)).1.map Prod.fst = pre.map TblCfg.name ∧
    mainRun f (⟨nm, true, pre ++ t :: post⟩ :: ss) =
      ((runTablesTrace f (pre ++ t :: post)).1, some e) := by
  have hkey : (runTablesTrace f (pre ++ t :: post)).2 = some e ∧
      (runTablesTrace f (pre ++ t :: post)).1.map Prod.fst = pre.map TblCfg.name := by
    induction pre with
    | nil =>
      simp only [List.nil_append]
      rw [runTablesTrace, ht]
      exact ⟨rfl, rfl⟩
    | cons x xs ih =>
      obtain ⟨n, hn⟩ := hpre x (List.mem_cons_self x xs)
      have h2 := ih (fun y hy => hpre y (List.mem_cons_of_mem x hy))
      rcases hrt : runTablesTrace f (xs ++ t :: post) with ⟨rs, err⟩
      rw [hrt] at h2
      simp only at h2
      rw [List.cons_append, runTablesTrace, hn, hrt]
      simp only [List.map_cons]
      exact ⟨h2.1, by rw [h2.2]⟩
  have hmain : ∀ rs2 : List (String × Nat) × Option String,
      runTablesTrace f (pre ++ t :: post) = rs2 → rs2.2 = some e →
      mainRun f (⟨nm, true, pre ++ t :: post⟩ :: ss) = (rs2.1, some e) := by
    intro rs2 hrt herr
    rw [mainRun, if_neg (by simp), hrt]
    rcases rs2 with ⟨rs, err⟩
    simp only at herr
    rw [herr]
  exact ⟨hkey.1, hkey.2,
    hmain (runTablesTrace f (pre ++ t :: post)) rfl hkey.1⟩

/-- Witness for C2 amended, at the counterexample's configuration. -/
theorem C2_amended_first_error_aborts_witness :
    (runTablesTrace failOnT2 ([tblNamed "t1"] ++ tblNamed "t2" :: [tblNamed "t3"])).2 =
      some "transfer failed" ∧
    (runTablesTrace failOnT2
        ([tblNamed "t1"] ++ tblNamed "t2" :: [tblNamed "t3"])).1.map Prod.fst =
      [tblNamed "t1"].map TblCfg.name ∧
    mainRun failOnT2
        (⟨"s1", true, [tblNamed "t1"] ++ tblNamed "t2" :: [tblNamed "t3"]⟩ ::
          [⟨"s2", true, [tblNamed "t3"]⟩]) =
      ((runTablesTrace failOnT2
          ([tblNamed "t1"] ++ tblNamed "t2" :: [tblNamed "t3"])).1,
        some "transfer failed") :=
  C2_amended_first_error_aborts failOnT2 [tblNamed "t1"] [tblNamed "t3"]
    (tblNamed "t2") "transfer failed" "s1" [⟨"s2", true, [tblNamed "t3"]⟩]
    (by intro x hx; simp only [List.mem_singleton] at hx; rw [hx]; exact ⟨1, rfl⟩)
    rfl
